import Mathlib

/-!
Verification of the HealthOdyssey recall ingestion and scoring pipeline.
All definitions below are shallow embeddings of the Python sources
`app.py`, `newsDemo.py` and `getNews.py`: network calls become explicit
oracle parameters, exceptions become `Option`/sum types, and Python
numbers are modelled exactly (integers as `Int`/`Nat`, float expressions
by the rational they denote, except where a claim's observable depends on
IEEE rounding — the progress schedule — which is modelled with explicit
binary64 round-to-nearest-even arithmetic).
-/

/-- ASCII decimal digit test, used to model the decimal digits accepted by
CPython's `int` and `strptime` on the data in scope. -/
def isAsciiDigit (c : Char) : Bool := '0' ≤ c && c ≤ '9'

/-- Numeric value of an ASCII digit. -/
def digitVal (c : Char) : Nat := c.toNat - 48

/-- Digit run of a Python integer literal after the sign: a nonempty digit
sequence in which an underscore may appear only between two digits
(CPython `int(str)` grammar). Accumulates the value. -/
def pyDigitsAux : Nat → List Char → Option Nat
  | acc, [] => some acc
  | acc, c :: rest =>
    if isAsciiDigit c then pyDigitsAux (10 * acc + digitVal c) rest
    else if c = '_' then
      match rest with
      | [] => none
      | d :: rest2 =>
        if isAsciiDigit d then pyDigitsAux (10 * acc + digitVal d) rest2 else none
    else none

/-- Nonempty digit run (first character must be a digit). -/
def pyDigits : List Char → Option Nat
  | [] => none
  | c :: rest => if isAsciiDigit c then pyDigitsAux (digitVal c) rest else none

/-- Python `str.strip()` whitespace test (the ASCII whitespace classes). -/
def isPyWhitespace (c : Char) : Bool :=
  c = ' ' || c = '\t' || c = '\n' || c = '\r' || c = '\x0b' || c = '\x0c'

/-- Strip leading and trailing whitespace from a character list. -/
def stripChars (cs : List Char) : List Char :=
  ((cs.dropWhile isPyWhitespace).reverse.dropWhile isPyWhitespace).reverse

/-- CPython `int(s)`: strip surrounding whitespace, optional sign, then a
digit run with optional single underscores between digits; `none` models
the `ValueError` path. -/
def pyInt (s : String) : Option Int :=
  match stripChars s.toList with
  | '+' :: rest => (pyDigits rest).map (fun n => (n : Int))
  | '-' :: rest => (pyDigits rest).map (fun n => -(n : Int))
  | cs => (pyDigits cs).map (fun n => (n : Int))

/-- Outcome of one scoring-oracle call (`client.chat.complete` followed by
reading `response.choices[0].message.content.strip()`): either some step of
the call raised, or it produced a response text. -/
inductive MistralOutcome where
  | failure
  | success (text : String)
deriving DecidableEq

/-- `analyze_with_mistral` (app.py 160-187, newsDemo.py 103-130): parse the
stripped response text with `int`; any exception — transport failure or a
`ValueError` from `int` — is caught and yields 100. -/
def analyze_with_mistral : MistralOutcome → Int
  | .failure => 100
  | .success text =>
    match pyInt text with
    | some n => n
    | none => 100

/-- A parsed naive `datetime` value. -/
structure DateTime where
  year : Nat
  month : Nat
  day : Nat
  hour : Nat
  minute : Nat
  second : Nat
deriving DecidableEq, Repr

/-- Candidates for `%d` in CPython `strptime`, in regex-alternation order:
`3[0-1]|[1-2]\d|0[1-9]|[1-9]| [1-9]`. Each candidate is the captured value
paired with the remaining input; later candidates are used on backtracking. -/
def dayCands : List Char → List (Nat × List Char)
  | c1 :: c2 :: rest =>
    let two :=
      if c1 = '3' && (c2 = '0' || c2 = '1') then [(30 + digitVal c2, rest)]
      else if (c1 = '1' || c1 = '2') && isAsciiDigit c2 then
        [(10 * digitVal c1 + digitVal c2, rest)]
      else if c1 = '0' && isAsciiDigit c2 && c2 ≠ '0' then [(digitVal c2, rest)]
      else []
    let one := if isAsciiDigit c1 && c1 ≠ '0' then [(digitVal c1, c2 :: rest)] else []
    let padded := if c1 = ' ' && isAsciiDigit c2 && c2 ≠ '0' then [(digitVal c2, rest)] else []
    two ++ one ++ padded
  | [c1] => if isAsciiDigit c1 && c1 ≠ '0' then [(digitVal c1, [])] else []
  | [] => []

/-- Candidates for `%m`: `1[0-2]|0[1-9]|[1-9]`. -/
def monthCands : List Char → List (Nat × List Char)
  | c1 :: c2 :: rest =>
    let two :=
      if c1 = '1' && (c2 = '0' || c2 = '1' || c2 = '2') then [(10 + digitVal c2, rest)]
      else if c1 = '0' && isAsciiDigit c2 && c2 ≠ '0' then [(digitVal c2, rest)]
      else []
    let one := if isAsciiDigit c1 && c1 ≠ '0' then [(digitVal c1, c2 :: rest)] else []
    two ++ one
  | [c1] => if isAsciiDigit c1 && c1 ≠ '0' then [(digitVal c1, [])] else []
  | [] => []

/-- Candidates for `%H`: `2[0-3]|[0-1]\d|\d`. -/
def hourCands : List Char → List (Nat × List Char)
  | c1 :: c2 :: rest =>
    let two :=
      if c1 = '2' && ('0' ≤ c2 && c2 ≤ '3') then [(20 + digitVal c2, rest)]
      else if (c1 = '0' || c1 = '1') && isAsciiDigit c2 then
        [(10 * digitVal c1 + digitVal c2, rest)]
      else []
    let one := if isAsciiDigit c1 then [(digitVal c1, c2 :: rest)] else []
    two ++ one
  | [c1] => if isAsciiDigit c1 then [(digitVal c1, [])] else []
  | [] => []

/-- Candidates for `%M`: `[0-5]\d|\d`. -/
def minuteCands : List Char → List (Nat × List Char)
  | c1 :: c2 :: rest =>
    let two :=
      if ('0' ≤ c1 && c1 ≤ '5') && isAsciiDigit c2 then
        [(10 * digitVal c1 + digitVal c2, rest)]
      else []
    let one := if isAsciiDigit c1 then [(digitVal c1, c2 :: rest)] else []
    two ++ one
  | [c1] => if isAsciiDigit c1 then [(digitVal c1, [])] else []
  | [] => []

/-- Candidates for `%S`: `6[0-1]|[0-5]\d|\d` (leap seconds pass the regex and
are rejected later by the `datetime` constructor). -/
def secondCands : List Char → List (Nat × List Char)
  | c1 :: c2 :: rest =>
    let two :=
      if c1 = '6' && (c2 = '0' || c2 = '1') then [(60 + digitVal c2, rest)]
      else if ('0' ≤ c1 && c1 ≤ '5') && isAsciiDigit c2 then
        [(10 * digitVal c1 + digitVal c2, rest)]
      else []
    let one := if isAsciiDigit c1 then [(digitVal c1, c2 :: rest)] else []
    two ++ one
  | [c1] => if isAsciiDigit c1 then [(digitVal c1, [])] else []
  | [] => []

/-- `%Y`: exactly four decimal digits (`\d\d\d\d`). -/
def yearCand : List Char → Option (Nat × List Char)
  | a :: b :: c :: d :: rest =>
    if isAsciiDigit a && isAsciiDigit b && isAsciiDigit c && isAsciiDigit d then
      some (1000 * digitVal a + 100 * digitVal b + 10 * digitVal c + digitVal d, rest)
    else none
  | _ => none

/-- A literal character of the format pattern. -/
def expectChar (c : Char) : List Char → Option (List Char)
  | x :: rest => if x = c then some rest else none
  | [] => none

/-- Whitespace in the format becomes `\s+` in the compiled regex. The token
following it here is always a digit, so the greedy maximal munch is the only
consumption that can succeed and backtracking inside the run is immaterial. -/
def wsChomp : List Char → Option (List Char)
  | c :: rest => if isPyWhitespace c then some (rest.dropWhile isPyWhitespace) else none
  | [] => none

/-- The six captured fields of a raw regex match, plus the unconsumed tail of
the input (`re.match` does not anchor the end). -/
structure RawStamp where
  day : Nat
  month : Nat
  year : Nat
  hour : Nat
  minute : Nat
  second : Nat
  leftover : List Char
deriving DecidableEq, Repr

/-- Try candidates in order, taking the first one whose continuation
succeeds — regex alternation with backtracking. -/
def firstHit {α : Type} (f : Nat → List Char → Option α) : List (Nat × List Char) → Option α
  | [] => none
  | (v, rest) :: t =>
    match f v rest with
    | some r => some r
    | none => firstHit f t

/-- Regex phase of `strptime(s, "%d/%m/%Y %H:%M:%S")`: leftmost match with
alternation priority, with no lookahead at trailing input or at calendar
validity (both are checked afterwards, without further backtracking). -/
def parseRaw (cs : List Char) : Option RawStamp :=
  firstHit (fun d r1 =>
    (expectChar '/' r1).bind fun r2 =>
    firstHit (fun m r3 =>
      (expectChar '/' r3).bind fun r4 =>
      (yearCand r4).bind fun (y, r5) =>
      (wsChomp r5).bind fun r6 =>
      firstHit (fun h r7 =>
        (expectChar ':' r7).bind fun r8 =>
        firstHit (fun mi r9 =>
          (expectChar ':' r9).bind fun r10 =>
          firstHit (fun s r11 =>
            some ⟨d, m, y, h, mi, s, r11⟩) (secondCands r10))
          (minuteCands r8))
        (hourCands r6))
      (monthCands r2))
    (dayCands cs)

/-- Proleptic Gregorian leap-year rule. -/
def isLeapYear (y : Nat) : Bool := (y % 4 = 0 && y % 100 ≠ 0) || y % 400 = 0

/-- Length of a month. -/
def daysInMonth (y m : Nat) : Nat :=
  if m = 2 then (if isLeapYear y then 29 else 28)
  else if m = 4 || m = 6 || m = 9 || m = 11 then 30
  else 31

/-- The `datetime` constructor's range checks (`MINYEAR = 1`,
`MAXYEAR = 9999`, day valid for the month, second at most 59 — so the leap
seconds admitted by the regex are rejected here). -/
def mkDatetime (y m d h mi s : Nat) : Option DateTime :=
  if 1 ≤ y && y ≤ 9999 && 1 ≤ m && m ≤ 12 && 1 ≤ d && d ≤ daysInMonth y m
      && h ≤ 23 && mi ≤ 59 && s ≤ 59 then
    some ⟨y, m, d, h, mi, s⟩
  else none

/-- `datetime.strptime(s, "%d/%m/%Y %H:%M:%S")`: regex match, then the
"unconverted data remains" check, then constructor validation; `none` models
every `ValueError`. -/
def pyStrptime (s : String) : Option DateTime :=
  match parseRaw s.toList with
  | none => none
  | some st =>
    if st.leftover.isEmpty then mkDatetime st.year st.month st.day st.hour st.minute st.second
    else none

/-- Day number of a civil date (days since 0000-03-01, proleptic Gregorian);
strictly monotone in calendar order, and a difference of `n` models a
`timedelta` of `n` days. -/
def toDays (y m d : Nat) : Nat :=
  let yAdj := if m ≤ 2 then y - 1 else y
  let era := yAdj / 400
  let yoe := yAdj % 400
  let mp := (m + 9) % 12
  let doy := (153 * mp + 2) / 5 + (d - 1)
  let doe := yoe * 365 + yoe / 4 - yoe / 100 + doy
  era * 146097 + doe

/-- Second count of a naive `datetime`; comparing these values coincides with
Python's field-lexicographic `datetime` ordering on valid dates, and
subtracting `604800` models `timedelta(days=7)`. -/
def DateTime.abs (t : DateTime) : Nat :=
  toDays t.year t.month t.day * 86400 + t.hour * 3600 + t.minute * 60 + t.second

/-- The date filter of `scrape_viandes` (getNews.py 90-100) and
`fetch_recalls` (newsDemo.py 81-91, app.py 105-115): parse `date_text` when
non-empty, swallowing the `ValueError`, then keep the record exactly when a
date was obtained and it lies in the inclusive window. -/
def keepRecord (dateText : String) (startF endF : DateTime) : Bool :=
  let recordDate : Option DateTime := if dateText = "" then none else pyStrptime dateText
  match recordDate with
  | none => false
  | some d => decide (startF.abs ≤ d.abs) && decide (d.abs ≤ endF.abs)

/-- Whether the first list is an initial segment of the second. -/
def startsList : List Char → List Char → Bool
  | [], _ => true
  | _ :: _, [] => false
  | a :: as, b :: bs => a = b && startsList as bs

/-- Whether the first list occurs as a contiguous block of the second. -/
def listContains (needle : List Char) : List Char → Bool
  | [] => needle.isEmpty
  | c :: rest => startsList needle (c :: rest) || listContains needle rest

/-- Python's `s.startswith(p)`. -/
def pyStartsWith (s p : String) : Bool :=
  startsList p.toList s.toList

/-- Python's substring operator `in`. -/
def strContains (needle hay : String) : Bool :=
  listContains needle.toList hay.toList

/-- The anchor node `<a class="product-link">` of a listing item: its
stripped text and its `href` attribute when present. -/
structure Anchor where
  text : String
  href : Option String
deriving DecidableEq, Repr

/-- The parts of one `<li class="product-item">` node that the extractors
read: the product anchor, the maker node's text, the stripped texts of the
`product-desc-item` children of the description container, and the
`datetime` attribute of the `<time>` node inside the date paragraph (the
`date_tag`/`time_tag`/`has_attr` chain is collapsed into one `Option`, any
missing link of the chain leaving the raw date absent). -/
structure Item where
  productLink : Option Anchor
  productMaker : Option String
  productDesc : Option (List String)
  productDateTime : Option String
deriving DecidableEq, Repr

/-- One extracted listing entry before date filtering. -/
structure RawRecall where
  title : String
  maker : String
  risks : String
  reason : String
  date : String
  link : String
deriving DecidableEq, Repr

/-- `BASE_URL` of getNews.py, also the literal base used by
`fetch_recalls` in app.py and newsDemo.py. -/
def BASE_URL : String := "https://rappel.conso.gouv.fr"

/-- Per-item field extraction of `scrape_viandes` (getNews.py 59-88):
missing anchor gives an empty title and link, a root-relative href is
prefixed with the base URL and any other href is used as is, missing maker
or description nodes give empty strings, and the raw date defaults to empty
when the time attribute is absent. -/
def gnExtract (it : Item) : RawRecall :=
  let title := match it.productLink with
    | some a => a.text
    | none => ""
  let link := match it.productLink with
    | some a => (a.href).getD ""
    | none => ""
  let fullLink := if pyStartsWith link "/" then BASE_URL ++ link else link
  let maker := (it.productMaker).getD ""
  let descItems := (it.productDesc).getD []
  let risks := match descItems with
    | r :: _ => r.replace "Risques : " ""
    | [] => ""
  let reason := match descItems with
    | _ :: r :: _ => r.replace "Motif : " ""
    | _ => ""
  let dateText := (it.productDateTime).getD ""
  ⟨title, maker, risks, reason, dateText, fullLink⟩

/-- Per-item field extraction of `fetch_recalls` (app.py 76-103; newsDemo.py
52-79 is identical but for the byte content of the two replace needles):
missing anchor gives the placeholder title `"No Title"`, an href that does
not start with `"http"` (including the empty default) is prefixed with the
base URL. -/
def appExtract (it : Item) : RawRecall :=
  let title := match it.productLink with
    | some a => a.text
    | none => "No Title"
  let link := match it.productLink with
    | some a => (a.href).getD ""
    | none => ""
  let fullLink := if pyStartsWith link "http" then link else BASE_URL ++ link
  let maker := (it.productMaker).getD ""
  let descItems := (it.productDesc).getD []
  let risks := match descItems with
    | r :: _ => r.replace "RisquesÂ :Â " ""
    | [] => ""
  let motif := match descItems with
    | _ :: r :: _ => r.replace "MotifÂ :Â " ""
    | _ => ""
  let dateText := (it.productDateTime).getD ""
  ⟨title, maker, risks, motif, dateText, fullLink⟩

/-- One `<li class="product-desc-item">` node of a detail page: the text of
its `<span class="carac">` and `<span class="val">` children when present. -/
structure DescItem where
  carac : Option String
  val : Option String
deriving DecidableEq, Repr

/-- Result of `requests.get` on a detail page: a raised exception, or a
response carrying its status code and parsed soup (parsing itself never
raises; a totally unrecognizable body is just a soup with no matching
nodes). -/
inductive DetailFetch where
  | exn
  | resp (status : Nat) (page : List DescItem)

/-- Whether a detail list-item's label span exists and contains the label. -/
def liMatches (label : String) (li : DescItem) : Bool :=
  match li.carac with
  | some c => strContains label c
  | none => false

/-- The scan loop of `get_zone_geographique`: return the `val` text of the
first matching item that has a `val` span; a matching item without one is
passed over and the scan continues. -/
def zoneScan (label : String) : List DescItem → String
  | [] => ""
  | li :: rest =>
    if liMatches label li then
      match li.val with
      | some v => v
      | none => zoneScan label rest
    else zoneScan label rest

/-- `get_zone_geographique` (getNews.py 13-35, app.py 37-56) with the
transport abstracted: one fetch of the url, empty string on an exception or
a non-200 status, otherwise the scan result. The second component is the
list of network requests issued, in order. -/
def zoneResolver (label : String) (fetch : String → DetailFetch) (url : String) :
    String × List String :=
  let result := match fetch url with
    | .exn => ""
    | .resp status page => if status ≠ 200 then "" else zoneScan label page
  (result, [url])

/-- The label searched for by getNews.py (line 28). -/
def gnZoneLabel : String := "Zone géographique de vente"

/-- The label searched for by app.py (line 49): the UTF-8 bytes of the
accented label decoded as Latin-1, so `é` appears as the two characters
`Ã©`. -/
def appZoneLabel : String := "Zone g\u00C3\u00A9ographique de vente"

/-- getNews.py's zone resolver. -/
def get_zone_geographique : (String → DetailFetch) → String → String × List String :=
  zoneResolver gnZoneLabel

/-- app.py's zone resolver. -/
def app_get_zone_geographique : (String → DetailFetch) → String → String × List String :=
  zoneResolver appZoneLabel

/-- A record of `scrape_viandes` (getNews.py 107-115). -/
structure GNRecord where
  title : String
  maker : String
  risks : String
  reason : String
  date : String
  zone : String
  link : String
deriving DecidableEq, Repr

/-- `start_date_filter = datetime(2021, 1, 1)` (getNews.py 40). -/
def start_date_filter : DateTime := ⟨2021, 1, 1, 0, 0, 0⟩

/-- `end_date_filter = datetime(2023, 12, 31, 23, 59, 59)` (getNews.py 41). -/
def end_date_filter : DateTime := ⟨2023, 12, 31, 23, 59, 59⟩

/-- Body of the per-item loop of `scrape_viandes` (getNews.py 59-116):
extract the fields, drop the record unless its date parses into the filter
window, otherwise enrich it with the detail-page zone (the zone oracle is
`get_zone_geographique` composed with the ambient transport). -/
def processItem (zone : String → String) (it : Item) : Option GNRecord :=
  let r := gnExtract it
  if keepRecord r.date start_date_filter end_date_filter then
    some ⟨r.title, r.maker, r.risks, r.reason, r.date, zone r.link, r.link⟩
  else none

/-- All kept records of one listing page, in listing order. -/
def processPage (zone : String → String) (items : List Item) : List GNRecord :=
  items.filterMap (processItem zone)

/-- Page loop of `scrape_viandes` (getNews.py 43-122), the page fetch
abstracted as an oracle from page number to status code and extracted item
nodes. Returns the accumulated records and the pages fetched, in order;
recursion is on the number of pages left in `range(page, endPage + 1)`. A
non-200 status or a page with no recognizable items breaks the loop. -/
def scrapeLoop (fetch : Nat → Nat × List Item) (zone : String → String) :
    Nat → Nat → List GNRecord × List Nat
  | _, 0 => ([], [])
  | page, n + 1 =>
    let (status, items) := fetch page
    if status ≠ 200 then ([], [page])
    else if items.isEmpty then ([], [page])
    else
      let recs := processPage zone items
      let rest := scrapeLoop fetch zone (page + 1) n
      (recs ++ rest.1, page :: rest.2)

/-- `scrape_viandes` over the page range `[startPage, endPage]`. -/
def scrape_viandes (fetch : Nat → Nat × List Item) (zone : String → String)
    (startPage endPage : Nat) : List GNRecord × List Nat :=
  scrapeLoop fetch zone startPage (endPage + 1 - startPage)

/-- A recall record as assembled by `fetch_recalls` (app.py 122-130). -/
structure Recall where
  date : String
  title : String
  maker : String
  risks : String
  motif : String
  link : String
  zone : String
deriving DecidableEq, Repr

/-- A scored row of the frame built by `get_recall_ratings` (app.py
207-212). -/
structure ScoredRecall where
  date : String
  title : String
  link : String
  score : Int
deriving DecidableEq, Repr

/-- The prompt text built for one record (app.py 205). -/
def fullText (r : Recall) : String :=
  r.title ++ ". Risks: " ++ r.risks ++ ". Motif: " ++ r.motif

/-- Floor of the base-2 logarithm by halving, with a structural fuel so
that the kernel can evaluate it; 0 for inputs below 2. -/
def natLog2Aux : Nat → Nat → Nat
  | 0, _ => 0
  | fuel + 1, n => if n ≤ 1 then 0 else natLog2Aux fuel (n / 2) + 1

/-- `⌊log₂ n⌋` for `n ≥ 1`. -/
def natLog2 (n : Nat) : Nat := natLog2Aux n n

/-- Whether the positive rational `a / b` lies below `2 ^ e`. -/
def qLt2pow (a b : Nat) (e : ℤ) : Bool :=
  if 0 ≤ e then a < b * 2 ^ e.toNat else a * 2 ^ (-e).toNat < b

/-- `⌊log₂ (a / b)⌋` for `a, b ≥ 1`: the bit-length difference is within
one of the true value, fixed up by comparison. -/
def ratLog2ab (a b : Nat) : ℤ :=
  let e0 : ℤ := (natLog2 a : ℤ) - (natLog2 b : ℤ)
  if qLt2pow a b e0 then e0 - 1
  else if qLt2pow a b (e0 + 1) then e0
  else e0 + 1

/-- A nonnegative binary64 value, written `mant * 2 ^ exp` (every float in
this pipeline is nonnegative). -/
structure Dyadic where
  mant : Nat
  exp : ℤ
deriving DecidableEq, Repr

/-- Round the positive rational `a / b` (`a, b ≥ 1`) to the nearest IEEE
binary64 value: 53-bit significand, ties to even, subnormal spacing below
`2 ^ (-1022)`; the rounding position is `ulp = 2 ^ u`, and the half-way
comparison `frac ≷ 1/2` is carried out on integers as `2r ≷ den`. The
quantities this pipeline produces stay far below the overflow threshold
`2 ^ 1024`. -/
def rnePos (a b : Nat) : Dyadic :=
  let e := ratLog2ab a b
  let u : ℤ := max (e - 52) (-1074)
  let numN := if 0 ≤ u then a else a * 2 ^ (-u).toNat
  let denN := if 0 ≤ u then b * 2 ^ u.toNat else b
  let f := numN / denN
  let r := numN % denN
  let k :=
    if 2 * r < denN then f
    else if denN < 2 * r then f + 1
    else if f % 2 = 0 then f else f + 1
  ⟨k, u⟩

/-- Python float true division of machine integers: the exact quotient
rounded to binary64 (the zero branches are unreachable guards). -/
def fdiv64 (a b : Nat) : Dyadic :=
  if a = 0 ∨ b = 0 then ⟨0, 0⟩ else rnePos a b

/-- Round `m * 2 ^ e` to binary64. -/
def roundDyadic (m : Nat) (e : ℤ) : Dyadic :=
  if m = 0 then ⟨0, 0⟩
  else if 0 ≤ e then rnePos (m * 2 ^ e.toNat) 1
  else rnePos m (2 ^ (-e).toNat)

/-- Python's `float * int`: the integer operand is first converted to
binary64 (exact below `2 ^ 53`, rounded above), then the exact product is
rounded. -/
def fmul64 (x : Dyadic) (n : Nat) : Dyadic :=
  let nd := if n = 0 then (⟨0, 0⟩ : Dyadic) else rnePos n 1
  if x.mant = 0 ∨ nd.mant = 0 then ⟨0, 0⟩
  else roundDyadic (x.mant * nd.mant) (x.exp + nd.exp)

/-- Python's `int()` on a nonnegative float: truncation toward zero, which
is the floor here. -/
def dyadicToInt (x : Dyadic) : Nat :=
  if 0 ≤ x.exp then x.mant * 2 ^ x.exp.toNat else x.mant / 2 ^ (-x.exp).toNat

/-- One progress value sent after `done` of `total` records:
`min(10 + int(step * (i + 1)), 100)` with
`step = 90 / total if total else 90` (app.py 202, 214-215), the float
arithmetic carried out in binary64 round-to-nearest-even exactly as the
program's doubles do. In the `total = 0` branch `step` is the exact value
90, and the loop body that would consume it never runs. -/
def progressReport (total done : Nat) : ℤ :=
  let step : Dyadic := if total ≠ 0 then fdiv64 90 total else ⟨90, 0⟩
  min (10 + (dyadicToInt (fmul64 step done) : ℤ)) 100

/-- `get_recall_ratings` (app.py 189-217, newsDemo.py 132-159) with the
scoring oracle abstracted as a map from prompt text to call outcome:
returns the scored rows and the sequence of values sent to the progress
bar (10 before the loop, then one report per record). -/
def get_recall_ratings (oracle : String → MistralOutcome) (recalls : List Recall)
    (hasProgressBar : Bool) : List ScoredRecall × List ℤ :=
  let total := recalls.length
  let data := recalls.map fun r =>
    ⟨r.date, r.title, r.link, analyze_with_mistral (oracle (fullText r))⟩
  let reports :=
    if hasProgressBar then
      10 :: (List.range total).map (fun i => progressReport total (i + 1))
    else []
  (data, reports)

/-- The overall safety index of `main` (app.py 254-259, newsDemo.py
199-204): 100 for an empty frame, else the mean of the score column. The
`df["score"] != "Error"` filter keeps every row — the score column holds the
integers produced by `analyze_with_mistral`, never the string `"Error"` —
so `df_valid` is the whole frame and its emptiness test repeats the outer
one. -/
def avg_index (scores : List Int) : ℚ :=
  if scores.isEmpty then 100
  else
    let valid := scores
    if valid.isEmpty then 100 else (valid.sum : ℚ) / valid.length

/-- The two fields of a record read by
`count_region_occurrences_last_week`, each through `record.get(_, "")`, a
missing key giving the empty string. -/
structure CountRecord where
  date : String
  zone : String
deriving DecidableEq, Repr

/-- `count_region_occurrences_last_week` (app.py 133-158): `now` is the
`datetime.now()` observed at entry; a record counts when its date string
parses, the date lies in `[now - timedelta(days=7), now]` (rendered on the
second count as `now.abs - 604800 ≤ d.abs ≤ now.abs`), and the zone contains
the region as a substring. A record whose date fails to parse is skipped. -/
def count_region_occurrences_last_week (now : DateTime) :
    List CountRecord → String → Nat
  | [], _ => 0
  | r :: rest, region =>
    let tail := count_region_occurrences_last_week now rest region
    match pyStrptime r.date with
    | none => tail
    | some d =>
      if (now.abs : ℤ) - 604800 ≤ (d.abs : ℤ) ∧ (d.abs : ℤ) ≤ (now.abs : ℤ) then
        if strContains region r.zone then tail + 1 else tail
      else tail

/-- The per-record test applied by `count_region_occurrences_last_week`:
the date string parses, the parsed date lies in the trailing-week window,
and the zone contains the region as a substring. -/
def lastWeekHit (now : DateTime) (region : String) (r : CountRecord) : Bool :=
  match pyStrptime r.date with
  | none => false
  | some d =>
    if (now.abs : ℤ) - 604800 ≤ (d.abs : ℤ) ∧ (d.abs : ℤ) ≤ (now.abs : ℤ) then
      strContains region r.zone
    else false

/-- A recall row with every field empty, used to instantiate batch-level
statements on concrete batches. -/
def blankRecall : Recall := ⟨"", "", "", "", "", "", ""⟩

/-- A batch of 33 records, a size at which the binary64 progress
computation visibly departs from the ideal rational schedule. -/
def recalls33 : List Recall := List.replicate 33 blankRecall

/-- A concrete listing item whose date lies inside the 2021-2023 filter
window of `scrape_viandes`. -/
def pageItem : Item :=
  ⟨some ⟨"Rappel test", some "/rappel/1"⟩, some "Maker",
    none, some "14/02/2022 15:43:31"⟩

/-- A concrete page oracle: page 1 holds one item, every later page is an
empty 200 page. -/
def fetchW : Nat → Nat × List Item :=
  fun q => if q = 1 then (200, [pageItem]) else (200, [])

/-- The empty string does not parse (`%d` needs at least one digit). -/
theorem pyStrptime_empty : pyStrptime "" = none := rfl

/-- C2: a record is kept by the date filter iff its date string parses under
`%d/%m/%Y %H:%M:%S` and the parsed timestamp lies in the inclusive window;
an empty or unparseable date string is always dropped. -/
theorem dateFilter_keep_iff (dateText : String) (startF endF : DateTime) :
    (keepRecord dateText startF endF = true ↔
      ∃ d, pyStrptime dateText = some d ∧
        startF.abs ≤ d.abs ∧ d.abs ≤ endF.abs) ∧
    keepRecord "" startF endF = false := by
  constructor
  · simp only [keepRecord]
    by_cases h : dateText = ""
    · subst h
      simp [pyStrptime_empty]
    · simp only [if_neg h]
      cases hp : pyStrptime dateText with
      | none => simp [hp]
      | some d => simp [hp]
  · rfl

/-- C1 as stated is false: when the oracle's reply is the integer text
`"150"`, the stored score is 150, outside `[0, 100]`. -/
theorem mistral_score_out_of_range :
    analyze_with_mistral (.success "150") = 150 ∧
      ¬ analyze_with_mistral (.success "150") ≤ 100 := by decide

/-- C1 amended: the score is exactly 100 whenever the oracle call fails or
its reply does not parse as an integer; when the reply parses, the score is
the parsed integer — bounded by `[0, 100]` only when that integer is — and
the orchestrator scores every record of the batch, never aborting it. -/
theorem mistral_score_policy :
    analyze_with_mistral .failure = 100 ∧
    (∀ t, pyInt t = none → analyze_with_mistral (.success t) = 100) ∧
    (∀ t n, pyInt t = some n → analyze_with_mistral (.success t) = n) ∧
    (∀ oracle recalls hasBar,
      ((get_recall_ratings oracle recalls hasBar).1).length = recalls.length) ∧
    (∀ t n, pyInt t = some n → 0 ≤ n → n ≤ 100 →
      0 ≤ analyze_with_mistral (.success t) ∧
        analyze_with_mistral (.success t) ≤ 100) := by
  refine ⟨rfl, ?_, ?_, ?_, ?_⟩
  · intro t h
    simp [analyze_with_mistral, h]
  · intro t n h
    simp [analyze_with_mistral, h]
  · intro oracle recalls hasBar
    simp [get_recall_ratings]
  · intro t n h h0 h1
    simp only [analyze_with_mistral, h]
    exact ⟨h0, h1⟩

/-- Witness for the amended C1 at concrete oracle replies. -/
theorem mistral_score_policy_witness :
    analyze_with_mistral (.success "42") = 42 ∧
      analyze_with_mistral (.success "abc") = 100 :=
  ⟨mistral_score_policy.2.2.1 "42" 42 (by decide),
   mistral_score_policy.2.1 "abc" (by decide)⟩

/-- C4: the aggregate index is 100 on the empty batch, 90 on `[80, 100]`,
and on any non-empty batch it is the arithmetic mean of the scores
(stated multiplicatively: index times count equals the sum). -/
theorem aggregate_index_spec :
    avg_index [] = 100 ∧ avg_index [80, 100] = 90 ∧
      ∀ scores : List Int, scores ≠ [] →
        avg_index scores * (scores.length : ℚ) = (scores.sum : ℚ) := by
  refine ⟨rfl, by norm_num [avg_index], ?_⟩
  intro scores h
  have hne : scores.isEmpty = false := by
    simpa [List.isEmpty_iff] using h
  have hl : (scores.length : ℚ) ≠ 0 := by
    have : 0 < scores.length := List.length_pos.mpr h
    exact_mod_cast Nat.pos_iff_ne_zero.mp this
  simp only [avg_index, hne, Bool.false_eq_true, if_false]
  exact div_mul_cancel₀ _ hl

/-- Witness for C4's mean property on a concrete non-empty batch. -/
theorem aggregate_index_spec_witness :
    avg_index [50] * (([50] : List Int).length : ℚ) = (([50] : List Int).sum : ℚ) :=
  aggregate_index_spec.2.2 [50] (by decide)

/-- C10: the region counter returns exactly the number of records whose
date parses, lies in the trailing-week window, and whose zone contains the
region as a substring; it never exceeds the number of records. -/
theorem count_region_spec (now : DateTime) (records : List CountRecord) (region : String) :
    count_region_occurrences_last_week now records region =
      (records.filter (lastWeekHit now region)).length ∧
    count_region_occurrences_last_week now records region ≤ records.length := by
  have main : ∀ rs : List CountRecord,
      count_region_occurrences_last_week now rs region =
        (rs.filter (lastWeekHit now region)).length := by
    intro rs
    induction rs with
    | nil => rfl
    | cons r rest ih =>
      simp only [count_region_occurrences_last_week, List.filter_cons]
      cases hp : pyStrptime r.date with
      | none =>
        have hhit : lastWeekHit now region r = false := by
          simp only [lastWeekHit, hp]
        rw [hhit]
        simp [ih]
      | some d =>
        have hhit : lastWeekHit now region r =
            (if (now.abs : ℤ) - 604800 ≤ (d.abs : ℤ) ∧ (d.abs : ℤ) ≤ (now.abs : ℤ) then
              strContains region r.zone
            else false) := by
          simp only [lastWeekHit, hp]
        rw [hhit]
        by_cases hw : (now.abs : ℤ) - 604800 ≤ (d.abs : ℤ) ∧ (d.abs : ℤ) ≤ (now.abs : ℤ)
        · simp only [if_pos hw]
          cases hz : strContains region r.zone
          · simp [hz, ih]
          · simp [hz, ih]
        · simp only [if_neg hw]
          simp [ih]
  refine ⟨main records, ?_⟩
  rw [main records]
  exact List.length_filter_le _ _

/-- Floor of a nonnegative rational quotient of naturals is natural
division. -/
theorem int_floor_nat_div (a b : ℕ) :
    Int.floor ((a : ℚ) / (b : ℚ)) = ((a / b : ℕ) : ℤ) := by
  have hq : (0 : ℚ) ≤ (a : ℚ) / (b : ℚ) := by positivity
  have h1 : ((⌊(a : ℚ) / (b : ℚ)⌋.toNat : ℕ) : ℤ) = ⌊(a : ℚ) / (b : ℚ)⌋ :=
    Int.toNat_of_nonneg (Int.floor_nonneg.mpr hq)
  rw [← h1, Int.floor_toNat, Nat.floor_div_nat, Nat.floor_natCast]

/-- On a nonzero total, the reported value is the clamped binary64
schedule value. -/
theorem progressReport_eq (total done : Nat) (h : total ≠ 0) :
    progressReport total done =
      min ((10 : ℤ) + (dyadicToInt (fmul64 (fdiv64 90 total) done) : ℤ)) 100 := by
  simp only [progressReport]
  rw [if_pos h]

set_option maxRecDepth 16384 in
/-- C3 amended: with a progress sink the orchestrator reports 10 before the
first record and, after record `i` (0-based), the clamped value
`min(10 + int(step * (i + 1)), 100)` computed in binary64 from
`step = 90 / total`; on totals where that arithmetic is exact — such as
`total = 4`, which yields 77 after record index 2 — this coincides with the
ideal `10 + floor((90 / total) * (i + 1))`, but the two can differ by one.
With an empty batch only the initial 10 is reported and the step defaults
to 90 with no division. -/
theorem progress_schedule (oracle : String → MistralOutcome) (recalls : List Recall) :
    ((get_recall_ratings oracle recalls true).2).length = recalls.length + 1 ∧
    ((get_recall_ratings oracle recalls true).2).getD 0 0 = 10 ∧
    (∀ i, i < recalls.length →
      ((get_recall_ratings oracle recalls true).2).getD (i + 1) 0 =
        min ((10 : ℤ) + (dyadicToInt (fmul64 (fdiv64 90 recalls.length) (i + 1)) : ℤ))
          100) ∧
    (recalls.length = 0 → (get_recall_ratings oracle recalls true).2 = [10]) ∧
    (recalls.length = 4 → ∀ i, i < 4 →
      ((get_recall_ratings oracle recalls true).2).getD (i + 1) 0 =
        min ((10 : ℤ) + ((90 * (i + 1)) / 4 : ℕ)) 100) := by
  have hmain : ∀ i, i < recalls.length →
      ((get_recall_ratings oracle recalls true).2).getD (i + 1) 0 =
        min ((10 : ℤ) + (dyadicToInt (fmul64 (fdiv64 90 recalls.length) (i + 1)) : ℤ))
          100 := by
    intro i hi
    have hne : recalls.length ≠ 0 := by omega
    simp [get_recall_ratings, List.getD_eq_getElem?_getD, List.getElem?_cons_succ,
      List.getElem?_map, List.getElem?_range hi, progressReport_eq _ _ hne]
  refine ⟨?_, ?_, hmain, ?_, ?_⟩
  · simp [get_recall_ratings]
  · simp [get_recall_ratings]
  · intro h0
    simp [get_recall_ratings, h0]
  · intro h4 i hi
    rw [hmain i (by omega), h4]
    interval_cases i <;> decide

set_option maxRecDepth 16384 in
/-- Witness for C3: a batch of four records reports 77 after record
index 2. -/
theorem progress_schedule_witness :
    ((get_recall_ratings (fun _ => MistralOutcome.failure)
        [blankRecall, blankRecall, blankRecall, blankRecall] true).2).getD 3 0 = 77 := by
  have h := (progress_schedule (fun _ => MistralOutcome.failure)
      [blankRecall, blankRecall, blankRecall, blankRecall]).2.2.2.2 rfl 2 (by decide)
  exact h.trans (by decide)

set_option maxRecDepth 16384 in
/-- C3 fails as stated: for a batch of 33 records, the report emitted after
record index 10 is 39 — binary64 computes `(90 / 33) * 11` as
`29.999999999999996`, which `int()` truncates to 29 — while the claimed
ideal schedule `10 + floor((90 / 33) * 11)` clamped to 100 gives 40. -/
theorem progress_float_cex :
    ((get_recall_ratings (fun _ => MistralOutcome.failure) recalls33 true).2).getD 11 0
        = 39 ∧
    min ((10 : ℤ) + ((90 * 11) / 33 : ℕ)) 100 = 40 := by
  constructor
  · decide
  · decide

/-- A prefix of `s` is a prefix of `s ++ t`. -/
theorem startsList_append_of (n s t : List Char) (h : startsList n s = true) :
    startsList n (s ++ t) = true := by
  induction n generalizing s with
  | nil => rfl
  | cons a as ih =>
    cases s with
    | nil => exact absurd h (by simp [startsList])
    | cons b bs =>
      simp only [List.cons_append, startsList, Bool.and_eq_true, decide_eq_true_eq] at h ⊢
      exact ⟨h.1, ih bs h.2⟩

/-- A list is a prefix of itself followed by anything. -/
theorem startsList_self_append (n t : List Char) : startsList n (n ++ t) = true := by
  induction n with
  | nil => rfl
  | cons a as ih => simp [startsList, ih]

/-- `startswith` is preserved by appending on the right. -/
theorem pyStartsWith_append (s r p : String) (h : pyStartsWith s p = true) :
    pyStartsWith (s ++ r) p = true := by
  have he : (s ++ r).toList = s.toList ++ r.toList := by
    simp [String.toList, String.data_append]
  simp only [pyStartsWith] at h ⊢
  rw [he]
  exact startsList_append_of _ _ _ h

/-- A string starts with itself under any right extension. -/
theorem pyStartsWith_append_self (s t : String) : pyStartsWith (s ++ t) s = true := by
  have he : (s ++ t).toList = s.toList ++ t.toList := by
    simp [String.toList, String.data_append]
  simp only [pyStartsWith, he]
  exact startsList_self_append _ _

/-- The absolutization step of `fetch_recalls` always yields a link
starting with `"http"`. -/
theorem app_fullLink_http (l : String) :
    pyStartsWith (if pyStartsWith l "http" then l else BASE_URL ++ l) "http" = true := by
  by_cases h : pyStartsWith l "http" = true
  · rw [if_pos h]
    exact h
  · rw [if_neg (by simpa using h)]
    exact pyStartsWith_append BASE_URL l "http" (by decide)

/-- C6 fails as stated: a bare relative href is passed through unchanged by
the getNews extractor — neither empty nor carrying a scheme. -/
theorem link_bare_relative_cex :
    (gnExtract ⟨some ⟨"t", some "page2.html"⟩, none, none, none⟩).link = "page2.html" ∧
    ¬ (gnExtract ⟨some ⟨"t", some "page2.html"⟩, none, none, none⟩).link = "" ∧
    pyStartsWith (gnExtract ⟨some ⟨"t", some "page2.html"⟩, none, none, none⟩).link "http"
      = false ∧
    strContains "://" (gnExtract ⟨some ⟨"t", some "page2.html"⟩, none, none, none⟩).link
      = false := by
  decide

/-- C6 amended: the app/newsDemo extractor always produces a link starting
with `"http"` (never empty, never bare-relative); the getNews extractor
produces the empty string or a base-prefixed absolute link except when the
href is a non-empty path not starting with `"/"`, which it passes through
unchanged. -/
theorem link_absolutization (it : Item) :
    pyStartsWith (appExtract it).link "http" = true ∧
    ((gnExtract it).link = "" ∨
      pyStartsWith (gnExtract it).link BASE_URL = true ∨
      ∃ a h, it.productLink = some a ∧ a.href = some h ∧
        pyStartsWith h "/" = false ∧ (gnExtract it).link = h) := by
  obtain ⟨pl, pm, pd, pt⟩ := it
  constructor
  · cases pl with
    | none => exact app_fullLink_http ""
    | some a => exact app_fullLink_http ((a.href).getD "")
  · cases pl with
    | none => exact Or.inl rfl
    | some a =>
      cases hh : a.href with
      | none =>
        left
        show (if pyStartsWith ((a.href).getD "") "/" then BASE_URL ++ ((a.href).getD "")
          else ((a.href).getD "")) = ""
        rw [hh]
        rfl
      | some h =>
        by_cases hs : pyStartsWith h "/" = true
        · right
          left
          show pyStartsWith (if pyStartsWith ((a.href).getD "") "/" then
              BASE_URL ++ ((a.href).getD "") else ((a.href).getD "")) BASE_URL = true
          rw [hh, Option.getD_some, if_pos hs]
          exact pyStartsWith_append_self BASE_URL h
        · right
          right
          refine ⟨a, h, rfl, hh, by simpa using hs, ?_⟩
          show (if pyStartsWith ((a.href).getD "") "/" then BASE_URL ++ ((a.href).getD "")
            else ((a.href).getD "")) = h
          rw [hh, Option.getD_some, if_neg (by simpa using hs)]

/-- C7 fails as stated: on a missing anchor the app/newsDemo extractor sets
the link to the bare base URL, not to the empty string. -/
theorem extractor_missing_anchor_cex :
    (appExtract ⟨none, none, none, none⟩).link = "https://rappel.conso.gouv.fr" ∧
    ¬ (appExtract ⟨none, none, none, none⟩).link = "" := by
  decide

/-- C7 amended: no entry is dropped at extraction and absent nodes become
defaults — a missing anchor gives the sentinel title `"No Title"` with the
base URL as link in the app/newsDemo extractor, and an empty title with an
empty link in the getNews extractor; a missing maker, missing description
sub-items and a missing time attribute give empty strings in both. -/
theorem extractor_defaults (it : Item) (items : List Item) :
    (it.productLink = none →
      (appExtract it).title = "No Title" ∧ (appExtract it).link = BASE_URL ∧
      (gnExtract it).title = "" ∧ (gnExtract it).link = "") ∧
    (it.productMaker = none → (appExtract it).maker = "" ∧ (gnExtract it).maker = "") ∧
    ((it.productDesc).getD [] = [] →
      (appExtract it).risks = "" ∧ (gnExtract it).risks = "") ∧
    (((it.productDesc).getD []).length < 2 →
      (appExtract it).reason = "" ∧ (gnExtract it).reason = "") ∧
    (it.productDateTime = none → (appExtract it).date = "" ∧ (gnExtract it).date = "") ∧
    (items.map appExtract).length = items.length ∧
    (items.map gnExtract).length = items.length := by
  obtain ⟨pl, pm, pd, pt⟩ := it
  refine ⟨?_, ?_, ?_, ?_, ?_, ?_, ?_⟩
  · intro hpl
    cases pl with
    | none => exact ⟨rfl, rfl, rfl, rfl⟩
    | some a => simp at hpl
  · intro hpm
    cases pm with
    | none => exact ⟨rfl, rfl⟩
    | some m => simp at hpm
  · intro hpd
    cases pd with
    | none => exact ⟨rfl, rfl⟩
    | some l =>
      simp only [Option.getD_some] at hpd
      subst hpd
      exact ⟨rfl, rfl⟩
  · intro hlen
    cases pd with
    | none => exact ⟨rfl, rfl⟩
    | some l =>
      simp only [Option.getD_some] at hlen
      rcases l with _ | ⟨a, _ | ⟨b, tl⟩⟩
      · exact ⟨rfl, rfl⟩
      · exact ⟨rfl, rfl⟩
      · exfalso
        simp [List.length_cons] at hlen
        omega
  · intro hpt
    cases pt with
    | none => exact ⟨rfl, rfl⟩
    | some d => simp at hpt
  · simp
  · simp

/-- Witness for the amended C7 at a fully empty item. -/
theorem extractor_defaults_witness :
    (appExtract ⟨none, none, none, none⟩).title = "No Title" ∧
    (gnExtract ⟨none, none, none, none⟩).title = "" ∧
    (appExtract ⟨none, none, none, none⟩).reason = "" :=
  ⟨((extractor_defaults ⟨none, none, none, none⟩ []).1 rfl).1,
   ((extractor_defaults ⟨none, none, none, none⟩ []).1 rfl).2.2.1,
   ((extractor_defaults ⟨none, none, none, none⟩ []).2.2.2.1 (by decide)).1⟩

/-- The scan returns empty when no list-item matches the label. -/
theorem zoneScan_of_no_match (label : String) (page : List DescItem)
    (h : ∀ li ∈ page, liMatches label li = false) :
    zoneScan label page = "" := by
  induction page with
  | nil => rfl
  | cons li rest ih =>
    have h1 : liMatches label li = false := h li (by simp)
    simp only [zoneScan, h1, Bool.false_eq_true, if_false]
    exact ih fun x hx => h x (List.mem_cons_of_mem _ hx)

/-- The scan returns the value of the first matching item that carries a
value span. -/
theorem zoneScan_first_val (label : String) (pre : List DescItem) (li : DescItem)
    (post : List DescItem) (v : String)
    (hpre : ∀ x ∈ pre, liMatches label x = false)
    (hm : liMatches label li = true) (hv : li.val = some v) :
    zoneScan label (pre ++ li :: post) = v := by
  induction pre with
  | nil => simp [zoneScan, hm, hv]
  | cons x xs ih =>
    have hx : liMatches label x = false := hpre x (by simp)
    simp only [List.cons_append, zoneScan, hx, Bool.false_eq_true, if_false]
    exact ih fun y hy => hpre y (List.mem_cons_of_mem _ hy)

/-- C8 fails as stated: on a detail page carrying the exact French label
`"Zone géographique de vente"`, the app resolver — whose needle is the
double-encoded `"Zone gÃ©ographique de vente"` — returns the empty string
instead of the paired value, while the getNews resolver returns it. -/
theorem zone_label_cex :
    (app_get_zone_geographique
        (fun _ => DetailFetch.resp 200
          [⟨some "Zone géographique de vente", some "Corse"⟩]) "u").1 = "" ∧
    (get_zone_geographique
        (fun _ => DetailFetch.resp 200
          [⟨some "Zone géographique de vente", some "Corse"⟩]) "u").1 = "Corse" := by
  constructor
  · rfl
  · rfl

/-- C8 amended: the zone resolver issues exactly one request and never
retries; it returns the empty string on a raised fetch, a non-200 status,
or a page with no matching item, and the paired value of the first matching
item that has one otherwise — where the label matched is
`"Zone géographique de vente"` in getNews.py but its double-encoded variant
in app.py. -/
theorem zone_resolver_behavior :
    (∀ label fetch url, (zoneResolver label fetch url).2 = [url]) ∧
    (∀ label fetch url, fetch url = .exn → (zoneResolver label fetch url).1 = "") ∧
    (∀ label fetch url s page, fetch url = .resp s page → s ≠ 200 →
      (zoneResolver label fetch url).1 = "") ∧
    (∀ label fetch url page, fetch url = .resp 200 page →
      (∀ li ∈ page, liMatches label li = false) →
      (zoneResolver label fetch url).1 = "") ∧
    (∀ label fetch url pre li post v, fetch url = .resp 200 (pre ++ li :: post) →
      (∀ x ∈ pre, liMatches label x = false) → liMatches label li = true →
      li.val = some v → (zoneResolver label fetch url).1 = v) ∧
    get_zone_geographique = zoneResolver gnZoneLabel ∧
    app_get_zone_geographique = zoneResolver appZoneLabel := by
  refine ⟨?_, ?_, ?_, ?_, ?_, rfl, rfl⟩
  · intro label fetch url
    rfl
  · intro label fetch url h
    simp [zoneResolver, h]
  · intro label fetch url s page hf hs
    simp [zoneResolver, hf, hs]
  · intro label fetch url page hf hnone
    simp [zoneResolver, hf, zoneScan_of_no_match label page hnone]
  · intro label fetch url pre li post v hf hpre hm hv
    simp [zoneResolver, hf, zoneScan_first_val label pre li post v hpre hm hv]

/-- Witness for the amended C8: a non-matching item followed by the target
item yields the target's value under the getNews label. -/
theorem zone_resolver_behavior_witness :
    (zoneResolver gnZoneLabel
        (fun _ => DetailFetch.resp 200
          [⟨some "Autre", some "x"⟩,
           ⟨some "Zone géographique de vente", some "Corse"⟩]) "u").1 = "Corse" :=
  zone_resolver_behavior.2.2.2.2.1 gnZoneLabel
    (fun _ => DetailFetch.resp 200
      [⟨some "Autre", some "x"⟩,
       ⟨some "Zone géographique de vente", some "Corse"⟩]) "u"
    [⟨some "Autre", some "x"⟩] ⟨some "Zone géographique de vente", some "Corse"⟩ [] "Corse"
    rfl (by decide) (by decide) rfl

/-- The page loop fetches exactly through the first bad page and returns
the records accumulated strictly before it. -/
theorem scrapeLoop_stops (fetch : Nat → Nat × List Item) (zone : String → String) (p : Nat) :
    ∀ (n page : Nat), page ≤ p → p < page + n →
      (∀ q, page ≤ q → q < p → (fetch q).1 = 200 ∧ (fetch q).2 ≠ []) →
      ((fetch p).1 ≠ 200 ∨ (fetch p).2 = []) →
      scrapeLoop fetch zone page n =
        ((List.range' page (p - page)).flatMap (fun q => processPage zone (fetch q).2),
          List.range' page (p - page + 1)) := by
  intro n
  induction n with
  | zero =>
    intro page h1 h2 _ _
    omega
  | succ n ih =>
    intro page hle hlt hgood hbad
    by_cases hpage : page = p
    · subst hpage
      have hz : page - page = 0 := Nat.sub_self page
      rcases hfp : fetch page with ⟨s, items⟩
      rw [hfp] at hbad
      simp only at hbad
      simp only [scrapeLoop, hfp, hz]
      rcases hbad with hb | hb
      · rw [if_pos hb]
        simp [List.range']
      · subst hb
        by_cases hs : s ≠ 200
        · rw [if_pos hs]
          simp [List.range']
        · rw [if_neg hs]
          simp [List.range']
    · have hlt' : page < p := by omega
      have hg := hgood page le_rfl hlt'
      rcases hfp : fetch page with ⟨s, items⟩
      rw [hfp] at hg
      simp only at hg
      obtain ⟨hs200, hne⟩ := hg
      subst hs200
      simp only [scrapeLoop, hfp]
      rw [if_neg (by simp)]
      rw [if_neg (by simpa [List.isEmpty_iff] using hne)]
      have ihh := ih (page + 1) (by omega) (by omega)
        (fun q hq1 hq2 => hgood q (by omega) hq2) hbad
      rw [ihh]
      have e1 : p - page = (p - (page + 1)) + 1 := by omega
      rw [e1, List.range'_succ, List.range'_succ]
      simp [List.flatMap_cons, hfp, List.range'_succ]

/-- C5: the first fetched page with a non-success status or no recognizable
item nodes halts the run; the batch accumulated from the earlier pages is
returned and exactly the pages up to and including the bad one were
fetched. -/
theorem pagination_stops_at_first_bad (fetch : Nat → Nat × List Item)
    (zone : String → String) (startPage endPage p : Nat)
    (hsp : startPage ≤ p) (hpe : p ≤ endPage)
    (hgood : ∀ q, startPage ≤ q → q < p → (fetch q).1 = 200 ∧ (fetch q).2 ≠ [])
    (hbad : (fetch p).1 ≠ 200 ∨ (fetch p).2 = []) :
    scrape_viandes fetch zone startPage endPage =
      ((List.range' startPage (p - startPage)).flatMap
          (fun q => processPage zone (fetch q).2),
        List.range' startPage (p - startPage + 1)) := by
  unfold scrape_viandes
  exact scrapeLoop_stops fetch zone p (endPage + 1 - startPage) startPage hsp (by omega)
    hgood hbad

/-- Witness for C5: one populated page, then an empty page at page 2;
the run returns the page-1 record and fetches only pages 1 and 2. -/
theorem pagination_stops_witness :
    scrape_viandes fetchW (fun _ => "France") 1 209 =
      ([⟨"Rappel test", "Maker", "", "", "14/02/2022 15:43:31",
          "France", "https://rappel.conso.gouv.fr/rappel/1"⟩], [1, 2]) := by
  have h := pagination_stops_at_first_bad fetchW (fun _ => "France") 1 209 2
    (by omega) (by omega)
    (fun q h1 h2 => by
      have hq : q = 1 := by omega
      subst hq
      exact ⟨rfl, by decide⟩)
    (Or.inr rfl)
  rw [h]
  decide
